import Mathlib

/-!
Shallow embedding of the dashboard dataset-config adapter
(`utils.tsx`: `SpansConfig`, `getEventsTableFieldOptions`,
`filterTableOptions`, `filterAggregateParams`, `getEventsRequest`,
`expandKeys`) and of the dashboard list manager
(`DashboardList`: `handleDuplicate`, `renderDropdownMenu`, the
`onCursor` pagination handler).

JavaScript objects are modelled as insertion-ordered association lists
with unique keys (`objInsert` mirrors the update-in-place-or-append
semantics of spread and computed-key assignment). Optional values and
the absence of a key are modelled with `Option`. The handlers are pure
functions from their inputs to the request/navigation data they build;
the HTTP client, React and the router are out of scope, as in the spec.
-/

set_option autoImplicit false

namespace SentryDashboards

/-- JavaScript object update: if the key is present, the entry is
updated in place (property order preserved); otherwise the entry is
appended. This is the semantics of both computed-key assignment and
object spread merging. -/
def objInsert {α : Type} : List (String × α) → String → α → List (String × α)
  | [], k, v => [(k, v)]
  | p :: rest, k, v =>
    if p.1 = k then (k, v) :: rest else p :: objInsert rest k v

/-- Property access on the modelled object: first entry with the key. -/
def objLookup {α : Type} (m : List (String × α)) (k : String) : Option α :=
  match m with
  | [] => none
  | p :: rest => if p.1 = k then some p.2 else objLookup rest k

/-- Spread of an object into a base object: `\x7b...base, ...xs\x7d`. -/
def objSpread {α : Type} (base xs : List (String × α)) : List (String × α) :=
  xs.foldl (fun m p => objInsert m p.1 p.2) base

/-- Metadata of a selectable field option. In the source, different
option kinds carry different meta shapes; the filters test for the
presence of the `dataType` and `unknown` properties, so those are
modelled as `Option` fields (`none` = property absent). -/
structure FieldMeta where
  name : String
  dataType : Option String := none
  unknown : Option Bool := none
  deriving DecidableEq, Repr

/-- The `value` part of a `FieldValueOption`: a kind tag (the string
values of the `FieldValueKind` enum) and the metadata. -/
structure FieldValue where
  kind : String
  meta : FieldMeta
  deriving DecidableEq, Repr

/-- A selectable field/aggregate choice (`FieldValueOption`). -/
structure FieldValueOption where
  label : String
  value : FieldValue
  deriving DecidableEq, Repr

/-- `filterTableOptions` from `utils.tsx` (lines 213-220): numeric
tags are filtered out of the primary options; they only show up in the
parameter fields for aggregate functions. -/
def filterTableOptions (option : FieldValueOption) : Bool :=
  match option.value.meta.dataType with
  | some d => d ≠ "number"
  | none => true

/-- `filterAggregateParams` from `utils.tsx` (lines 222-233): unknown
values are always allowed as aggregate parameters; otherwise, when a
data type is declared, only numeric options pass. -/
def filterAggregateParams (option : FieldValueOption) : Bool :=
  if option.value.meta.unknown = some true then
    true
  else
    match option.value.meta.dataType with
    | some d => d = "number"
    | none => true

/-- Observation used by the spec: the option is flagged unknown. -/
def isUnknownFlagged (option : FieldValueOption) : Prop :=
  option.value.meta.unknown = some true

/-- Observation used by the spec: the option declares a numeric data
type. -/
def isNumericTyped (option : FieldValueOption) : Prop :=
  option.value.meta.dataType = some "number"

instance (o : FieldValueOption) : Decidable (isUnknownFlagged o) := by
  unfold isUnknownFlagged; infer_instance

instance (o : FieldValueOption) : Decidable (isNumericTyped o) := by
  unfold isNumericTyped; infer_instance

/-- A tag from the tag catalog (`TagCollection` values). `kind` is an
optional property of the source `Tag` type. -/
structure Tag where
  key : String
  name : String
  kind : Option String := none
  deriving DecidableEq, Repr

/-- The tag catalog, modelled as the insertion-ordered value list of
the source record (the source only reads `Object.values(tags ?? \x7b\x7d)`). -/
abbrev TagCollection := List Tag

/-- Organization context; only the slug is read by this code. -/
structure Organization where
  slug : String
  deriving DecidableEq, Repr

/-- Ambient page filters; read-only, never inspected by the modelled
code beyond being threaded through. -/
structure PageFilters where
  projects : List Int := []
  environments : List String := []
  deriving DecidableEq, Repr

/-- Parameter spec of an EAP aggregation (`EAP_AGGREGATIONS` reduce
body, `utils.tsx` lines 110-124). -/
structure AggregateParameterSpec where
  kind : String
  columnTypes : List String
  defaultValue : String
  required : Bool
  deriving DecidableEq, Repr

/-- One aggregation entry of `EAP_AGGREGATIONS`. -/
structure AggregationSpec where
  isSortable : Bool
  outputType : Option String
  parameters : List AggregateParameterSpec
  deriving DecidableEq, Repr

/-- Modelled from the spec: `ALLOWED_EXPLORE_VISUALIZE_AGGREGATES`
(imported from `sentry/utils/fields`, not under `src/`) is a fixed
list of aggregate-function names; the claims do not depend on the
exact names, only on the entries being the fixed function catalog. -/
def allowedExploreVisualizeAggregates : List String :=
  ["count", "avg", "sum", "min", "max", "p50", "p75", "p90", "p95", "p99"]

/-- `EAP_AGGREGATIONS` (`utils.tsx` lines 110-124): every allowed
aggregate maps to the same sortable spec with one column parameter
accepting number and string (string kept for unknown values). -/
def eapAggregations : List (String × AggregationSpec) :=
  allowedExploreVisualizeAggregates.map (fun aggregate =>
    (aggregate,
      { isSortable := true
        outputType := none
        parameters := [{ kind := "column"
                         columnTypes := ["number", "string"]
                         defaultValue := "span.duration"
                         required := true }] }))

/-- Modelled from the spec: `generateFieldOptions` (imported from
`sentry/views/discover/utils`, not under `src/`), called with empty
`tagKeys` and `fieldKeys`, builds the static base catalog of
aggregate-function entries, one per aggregation, keyed
`"function:<name>"`; function metadata has no `dataType` and no
`unknown` property. -/
def baseFieldOptions : List (String × FieldValueOption) :=
  eapAggregations.map (fun p =>
    ("function:" ++ p.1,
      { label := p.1 ++ "()"
        value := { kind := "function"
                   meta := { name := p.1 } } }))

/-- The key of the dynamic option built for a tag: the template
literal `"<kind>:<key>"`; an absent kind interpolates as the string
`"undefined"`, as in JavaScript. -/
def tagOptionKey (tag : Tag) : String :=
  (match tag.kind with
   | some k => k
   | none => "undefined") ++ ":" ++ tag.key

/-- The option built for one tag (`utils.tsx` lines 194-205): kind
`FieldValueKind.TAG`, data type `"string"` exactly when the kind is
the plain `"tag"` kind, else `"number"`. -/
def tagFieldOption (tag : Tag) : FieldValueOption :=
  { label := tag.name
    value := { kind := "tag"
               meta := { name := tag.key
                         dataType :=
                           some (if tag.kind = some "tag" then "string"
                                 else "number") } } }

/-- `getEventsTableFieldOptions` (`utils.tsx` lines 180-211): the base
catalog spread first, then one entry per tag of the catalog (the
`reduce` over `Object.values(tags ?? \x7b\x7d)`). -/
def getEventsTableFieldOptions (_organization : Organization)
    (tags : Option TagCollection) : List (String × FieldValueOption) :=
  let spanTags :=
    (match tags with
     | some ts => ts
     | none => []).foldl
      (fun acc tag => objInsert acc (tagOptionKey tag) (tagFieldOption tag)) []
  objSpread baseFieldOptions spanTags

/-- A widget query (`WidgetQuery` from the dashboards type model). -/
structure WidgetQuery where
  name : String
  fields : List String
  columns : List String
  fieldAliases : List String
  aggregates : List String
  conditions : String
  orderby : String
  deriving DecidableEq, Repr

/-- `DEFAULT_WIDGET_QUERY` (`utils.tsx` lines 100-108). -/
def DEFAULT_WIDGET_QUERY : WidgetQuery :=
  { name := ""
    fields := ["span.op", "avg(span.duration)"]
    columns := ["span.op"]
    fieldAliases := []
    aggregates := ["avg(span.duration)"]
    conditions := ""
    orderby := "-avg(span.duration)" }

/-- Transport retry policy passed to `doDiscoverQuery`. -/
structure RetryOptions where
  statusCodes : List Nat
  tries : Nat
  deriving DecidableEq, Repr

/-- The outbound table request assembled by `getEventsRequest`.
`sort` is `none` when the `sort` parameter is omitted. The query
string derived from the generated event view is out of scope (spec:
the view carries no competing `sort` key; `sort` is set only by the
adapter). -/
structure DiscoverQueryRequest where
  url : String
  per_page : Option Nat
  cursor : Option String
  referrer : Option String
  dataset : String
  sort : Option (List String)
  retry : RetryOptions
  deriving DecidableEq, Repr

/-- `toArray` (`sentry/utils/array/toArray`): wraps a non-array value
in a singleton list. -/
def toArray (s : String) : List String := [s]

/-- `getEventsRequest` (`utils.tsx` lines 235-276): builds the events
request with `dataset=spans-eap`, pagination and referrer parameters,
a `sort` parameter only when `query.orderby` is truthy (non-empty),
and a retry policy of 3 tries on status 429. -/
def getEventsRequest (query : WidgetQuery) (organization : Organization)
    (_pageFilters : PageFilters) (limit : Option Nat)
    (cursor : Option String) (referrer : Option String) :
    DiscoverQueryRequest :=
  { url := "/organizations/" ++ organization.slug ++ "/events/"
    per_page := limit
    cursor := cursor
    referrer := referrer
    dataset := "spans-eap"
    sort := if query.orderby = "" then none else some (toArray query.orderby)
    retry := { statusCodes := [429], tries := 3 } }

/-- A widget (`Widget` from the dashboards type model); `id` is
absent for unsaved widgets. -/
structure Widget where
  id : Option String := none
  displayType : String := "table"
  queries : List WidgetQuery := []
  deriving DecidableEq, Repr

/-- `SpansConfig.getTableRequest` (`utils.tsx` lines 151-172):
delegates to `getEventsRequest`, dropping the widget and the optional
control/mep context. -/
def getTableRequest (_widget : Widget) (query : WidgetQuery)
    (organization : Organization) (pageFilters : PageFilters)
    (limit : Option Nat) (cursor : Option String)
    (referrer : Option String) : DiscoverQueryRequest :=
  getEventsRequest query organization pageFilters limit cursor referrer

/-- A dashboard full detail as fetched by `fetchDashboard`. -/
structure DashboardDetails where
  id : String
  title : String
  widgets : List Widget
  deriving DecidableEq, Repr

/-- Modelled from the spec: `cloneDashboard` (imported from
`../utils`, not under `src/`) is the external cloning collaborator
with a naming/deduplication policy; it returns a new dashboard with a
derived title and the same widget list. -/
def cloneDashboard (dashboard : DashboardDetails) : DashboardDetails :=
  { dashboard with title := dashboard.title ++ " copy" }

/-- The create request issued by `createDashboard`; the `duplicate`
flag (passed as `true` by `handleDuplicate`) disables duplicate-title
detection on the backend. -/
structure CreateDashboardRequest where
  dashboard : DashboardDetails
  duplicate : Bool
  deriving DecidableEq, Repr

/-- `handleDuplicate` (`DashboardList`, part_001 lines 66-81), success
path after the detail fetch: clone the fetched detail, set every
widget identifier to `undefined` (the source mutates each widget in
place through `.map`), and issue the create request with the
duplicate flag set. -/
def handleDuplicate (dashboardDetail : DashboardDetails) :
    CreateDashboardRequest :=
  let newDashboard := cloneDashboard dashboardDetail
  let cleared := newDashboard.widgets.map (fun w => { w with id := none })
  { dashboard := { newDashboard with widgets := cleared }
    duplicate := true }

/-- A compact widget preview carried by a dashboard summary. -/
structure WidgetPreviewItem where
  displayType : String
  deriving DecidableEq, Repr

/-- A dashboard summary as listed (`DashboardListItem`). -/
structure DashboardListItem where
  id : String
  title : String
  widgetPreview : List WidgetPreviewItem := []
  dateCreated : Option String := none
  deriving DecidableEq, Repr

/-- The `disabledKeys` computed by `renderDropdownMenu` (part_001 line
123): `dashboards && dashboards.length <= 1 ? ['dashboard-delete'] :
[]`. An absent collection is falsy (no disabled key); a present
collection (an empty array is truthy) disables delete when its length
is at most 1. -/
def renderDropdownMenuDisabledKeys
    (dashboards : Option (List DashboardListItem)) : List String :=
  match dashboards with
  | none => []
  | some ds => if ds.length ≤ 1 then ["dashboard-delete"] else []

/-- Split of a character list at every occurrence of a separator
character; mirrors JavaScript `String.prototype.split` with a
one-character separator (the only form this code uses). The empty
string splits to one empty field. -/
def splitOnChar (sep : Char) : List Char → List (List Char)
  | [] => [[]]
  | c :: rest =>
    match splitOnChar sep rest with
    | [] => if c = sep then [[], []] else [[c]]
    | h :: t => if c = sep then [] :: h :: t else (c :: h) :: t

/-- JavaScript `split` with a one-character separator, on strings. -/
def jsSplit (s : String) (sep : Char) : List String :=
  (splitOnChar sep s.data).map (fun l => String.mk l)

/-- Leading and trailing whitespace removal, as JavaScript `Number`
performs before conversion. -/
def trimChars (l : List Char) : List Char :=
  ((l.dropWhile Char.isWhitespace).reverse.dropWhile Char.isWhitespace).reverse

/-- Numeric value of the characters of a decimal digit string. -/
def digitsVal (l : List Char) : Nat :=
  l.foldl (fun a c => a * 10 + (c.toNat - 48)) 0

/-- Modelled from JavaScript `Number` on strings, restricted to the
forms this code can receive (cursor offset fields): surrounding
whitespace is trimmed, the empty string converts to 0, an optionally
minus-signed decimal digit string converts to its value, and anything
else is NaN (`none`). Fractional, exponent, hexadecimal and infinity
forms are outside the modelled fragment. -/
def jsNumberStr (s : String) : Option Int :=
  let t := trimChars s.data
  if t = [] then some 0
  else if t.all Char.isDigit then some (digitsVal t)
  else if t.head? = some '-' ∧ t.tail ≠ [] ∧ t.tail.all Char.isDigit then
    some (-(digitsVal t.tail : Int))
  else none

/-- The offset derivation of the `onCursor` handler (part_001 line
179): `Number(cursor?.split?.(':')?.[1] ?? 0)`. An absent cursor or an
absent second field falls back to 0 before conversion; a present field
is converted by `Number` and may be NaN (`none`). -/
def deriveOffset (cursor : Option String) : Option Int :=
  match cursor with
  | none => some 0
  | some c =>
    match (jsSplit c ':').get? 1 with
    | none => some 0
    | some s => jsNumberStr s

/-- The comparison `offset <= 0` under JavaScript semantics: false
when the offset is NaN. -/
def offsetAtOrBeforeStart (offset : Option Int) : Bool :=
  match offset with
  | some v => v ≤ 0
  | none => false

/-- The cursor slot of the navigation query built by the `onCursor`
handler (part_001 lines 178-193). `none` means the `cursor` key was
deleted from the query; `some c` means the key is present with value
`c` (itself possibly `undefined`). Direction `-1` is previous. -/
def onCursorQueryCursor (cursor : Option String) (direction : Int) :
    Option (Option String) :=
  if offsetAtOrBeforeStart (deriveOffset cursor) ∧ direction = -1 then none
  else some cursor

/-- Nested JSON-like value built by `expandKeys`: a string leaf or a
nested object. -/
inductive JVal where
  | str : String → JVal
  | obj : List (String × JVal) → JVal

/-- The nested object found at a key, or a fresh empty object when
the key is absent or holds a non-object value (the intermediate-step
rule of lodash `set`). -/
def objChild (m : List (String × JVal)) (k : String) :
    List (String × JVal) :=
  match objLookup m k with
  | some (JVal.obj o) => o
  | _ => []

/-- Modelled from the documented behavior of lodash `set` on string
key paths (lodash is an external library): walk the path, descending
into existing object values and replacing absent or non-object
intermediates with fresh objects, and assign the leaf at the final
key. The array-index behavior of numeric path segments is outside the
modelled fragment; repository keys are non-numeric identifiers. -/
def setPath (m : List (String × JVal)) : List String → String →
    List (String × JVal)
  | [], _v => m
  | k :: rest, v =>
    match rest with
    | [] => objInsert m k (JVal.str v)
    | _ :: _ => objInsert m k (JVal.obj (setPath (objChild m k) rest v))

/-- `expandKeys` (`utils.tsx` lines 56-62): fold over the entries of
the flat repository object, placing each value into a fresh result at
the path obtained by splitting the key on `"."`. -/
def expandKeys (obj : List (String × String)) : List (String × JVal) :=
  obj.foldl (fun result p => setPath result (jsSplit p.1 '.') p.2) []

/-- Reads a string leaf at a key path in the nested result; used only
to state properties of `expandKeys`. -/
def lookupPath (m : List (String × JVal)) : List String → Option String
  | [] => none
  | k :: rest =>
    match rest with
    | [] =>
      match objLookup m k with
      | some (JVal.str s) => some s
      | _ => none
    | _ :: _ =>
      match objLookup m k with
      | some (JVal.obj o) => lookupPath o rest
      | _ => none

/-- Two key paths conflict when one is a prefix of the other (so one
assignment can overwrite or nest inside the other). -/
def pathsConflict : List String → List String → Bool
  | [], _ => true
  | _ :: _, [] => true
  | a :: p, b :: q => if a = b then pathsConflict p q else false

/-! ### Association-list object lemmas -/

theorem objLookup_objInsert_self {α : Type} (m : List (String × α))
    (k : String) (v : α) : objLookup (objInsert m k v) k = some v := by
  induction m with
  | nil => simp [objInsert, objLookup]
  | cons p rest ih =>
    by_cases h : p.1 = k
    · simp [objInsert, objLookup, h]
    · simp [objInsert, objLookup, h, ih]

theorem objLookup_objInsert_of_ne {α : Type} (m : List (String × α))
    {k k' : String} (v : α) (h : k' ≠ k) :
    objLookup (objInsert m k v) k' = objLookup m k' := by
  induction m with
  | nil => simp [objInsert, objLookup, Ne.symm h]
  | cons p rest ih =>
    by_cases hp : p.1 = k
    · simp [objInsert, objLookup, hp, Ne.symm h]
    · simp only [objInsert, if_neg hp, objLookup]
      by_cases hp' : p.1 = k'
      · simp [hp']
      · simp [hp', ih]

theorem mem_keys_objInsert {α : Type} (m : List (String × α))
    (k x : String) (v : α) :
    x ∈ (objInsert m k v).map Prod.fst ↔ x = k ∨ x ∈ m.map Prod.fst := by
  induction m with
  | nil => simp [objInsert]
  | cons p rest ih =>
    by_cases hp : p.1 = k
    · simp only [objInsert, if_pos hp, List.map_cons, List.mem_cons]
      constructor
      · rintro (h | h)
        · exact Or.inl h
        · exact Or.inr (Or.inr h)
      · rintro (h | h | h)
        · exact Or.inl h
        · exact Or.inl (hp ▸ h)
        · exact Or.inr h
    · simp only [objInsert, if_neg hp, List.map_cons, List.mem_cons, ih]
      tauto

theorem keys_nodup_objInsert {α : Type} (m : List (String × α))
    (k : String) (v : α) (h : (m.map Prod.fst).Nodup) :
    ((objInsert m k v).map Prod.fst).Nodup := by
  induction m with
  | nil => simp [objInsert]
  | cons p rest ih =>
    simp only [List.map_cons, List.nodup_cons] at h
    by_cases hp : p.1 = k
    · simp only [objInsert, if_pos hp, List.map_cons, List.nodup_cons]
      exact ⟨hp ▸ h.1, h.2⟩
    · simp only [objInsert, if_neg hp, List.map_cons, List.nodup_cons]
      refine ⟨fun hc => ?_, ih h.2⟩
      rcases (mem_keys_objInsert rest k p.1 v).mp hc with he | hm
      · exact hp he
      · exact h.1 hm

theorem objLookup_mem_keys {α : Type} (m : List (String × α))
    (k : String) (v : α) (h : objLookup m k = some v) :
    k ∈ m.map Prod.fst := by
  induction m with
  | nil => simp [objLookup] at h
  | cons p rest ih =>
    simp only [objLookup] at h
    by_cases hp : p.1 = k
    · simp [hp]
    · simp only [if_neg hp] at h
      simp [ih h]

theorem objLookup_objSpread_of_not_mem {α : Type} (xs : List (String × α))
    (base : List (String × α)) (k : String)
    (h : ∀ p ∈ xs, p.1 ≠ k) :
    objLookup (objSpread base xs) k = objLookup base k := by
  induction xs generalizing base with
  | nil => rfl
  | cons x rest ih =>
    have hx : x.1 ≠ k := h x (by simp)
    calc objLookup (objSpread (objInsert base x.1 x.2) rest) k
        = objLookup (objInsert base x.1 x.2) k :=
          ih _ (fun p hp => h p (by simp [hp]))
      _ = objLookup base k :=
          objLookup_objInsert_of_ne base x.2 (fun he => hx he.symm)

theorem objLookup_objSpread_mem {α : Type} (xs : List (String × α))
    (base : List (String × α)) (k : String) (v : α)
    (hnd : (xs.map Prod.fst).Nodup) (hmem : (k, v) ∈ xs) :
    objLookup (objSpread base xs) k = some v := by
  induction xs generalizing base with
  | nil => simp at hmem
  | cons x rest ih =>
    simp only [List.map_cons, List.nodup_cons] at hnd
    rcases List.mem_cons.mp hmem with he | hm
    · have hx : x = (k, v) := he.symm
      subst hx
      have hk : (k : String) ∉ rest.map Prod.fst := hnd.1
      calc objLookup (objSpread (objInsert base k v) rest) k
          = objLookup (objInsert base k v) k := by
            refine objLookup_objSpread_of_not_mem rest _ k ?_
            intro p hp hpk
            exact hk (hpk ▸ List.mem_map_of_mem Prod.fst hp)
        _ = some v := objLookup_objInsert_self base k v
    · exact ih _ hnd.2 hm

theorem keys_nodup_objSpread {α : Type} (xs : List (String × α))
    (base : List (String × α)) (h : (base.map Prod.fst).Nodup) :
    ((objSpread base xs).map Prod.fst).Nodup := by
  induction xs generalizing base with
  | nil => exact h
  | cons x rest ih => exact ih _ (keys_nodup_objInsert base x.1 x.2 h)

theorem objInsert_of_not_mem {α : Type} (m : List (String × α))
    (k : String) (v : α) (h : k ∉ m.map Prod.fst) :
    objInsert m k v = m ++ [(k, v)] := by
  induction m with
  | nil => rfl
  | cons p rest ih =>
    simp only [List.map_cons, List.mem_cons] at h
    push_neg at h
    have hp : p.1 ≠ k := fun he => h.1 he.symm
    simp [objInsert, hp, ih h.2]

theorem foldl_objInsert_tags_eq :
    ∀ (tags : List Tag) (acc : List (String × FieldValueOption)),
    (tags.map tagOptionKey).Nodup →
    (∀ t ∈ tags, tagOptionKey t ∉ acc.map Prod.fst) →
    tags.foldl
      (fun acc tag => objInsert acc (tagOptionKey tag) (tagFieldOption tag))
      acc
      = acc ++ tags.map (fun tag => (tagOptionKey tag, tagFieldOption tag)) := by
  intro tags
  induction tags with
  | nil => intro acc _ _; simp
  | cons t rest ih =>
    intro acc hnd hdisj
    simp only [List.map_cons, List.nodup_cons] at hnd
    have hstep : objInsert acc (tagOptionKey t) (tagFieldOption t)
        = acc ++ [(tagOptionKey t, tagFieldOption t)] :=
      objInsert_of_not_mem _ _ _ (hdisj t (by simp))
    have hdisj' : ∀ u ∈ rest,
        tagOptionKey u ∉
          (objInsert acc (tagOptionKey t) (tagFieldOption t)).map Prod.fst := by
      intro u hu hmem
      rcases (mem_keys_objInsert acc (tagOptionKey t) (tagOptionKey u)
          (tagFieldOption t)).mp hmem with he | hacc
      · exact hnd.1 (he ▸ List.mem_map_of_mem tagOptionKey hu)
      · exact hdisj u (by simp [hu]) hacc
    have hrec := ih (objInsert acc (tagOptionKey t) (tagFieldOption t))
      hnd.2 hdisj'
    simp only [List.foldl_cons]
    rw [hrec, hstep]
    simp

theorem baseFieldOptions_keys_nodup : (baseFieldOptions.map Prod.fst).Nodup := by
  decide

/-! ### Path-expansion lemmas -/

theorem splitOnChar_ne_nil (sep : Char) (l : List Char) :
    splitOnChar sep l ≠ [] := by
  cases l with
  | nil => simp [splitOnChar]
  | cons c rest =>
    simp only [splitOnChar]
    cases splitOnChar sep rest with
    | nil => by_cases h : c = sep <;> simp [h]
    | cons h t => by_cases hcs : c = sep <;> simp [hcs]

theorem jsSplit_ne_nil (s : String) (sep : Char) : jsSplit s sep ≠ [] := by
  intro h
  exact splitOnChar_ne_nil sep s.data (by simpa [jsSplit] using h)

theorem lookupPath_nil : ∀ p : List String, lookupPath [] p = none
  | [] => rfl
  | [_] => rfl
  | _ :: _ :: _ => rfl

theorem setPath_single (m : List (String × JVal)) (k v : String) :
    setPath m [k] v = objInsert m k (JVal.str v) := rfl

theorem setPath_cons_cons (m : List (String × JVal)) (k q1 : String)
    (qs : List String) (v : String) :
    setPath m (k :: q1 :: qs) v =
      objInsert m k (JVal.obj (setPath (objChild m k) (q1 :: qs) v)) := rfl

theorem lookupPath_single (m : List (String × JVal)) (k : String) :
    lookupPath m [k] =
      (match objLookup m k with
       | some (JVal.str s) => some s
       | _ => none) := rfl

theorem lookupPath_cons_cons (m : List (String × JVal)) (j p1 : String)
    (ps : List String) :
    lookupPath m (j :: p1 :: ps) =
      (match objLookup m j with
       | some (JVal.obj o) => lookupPath o (p1 :: ps)
       | _ => none) := rfl

theorem lookupPath_objInsert_obj_self (m : List (String × JVal))
    (j : String) (o : List (String × JVal)) (p1 : String)
    (ps : List String) :
    lookupPath (objInsert m j (JVal.obj o)) (j :: p1 :: ps) =
      lookupPath o (p1 :: ps) := by
  rw [lookupPath_cons_cons, objLookup_objInsert_self]

theorem lookupPath_objInsert_of_ne (m : List (String × JVal))
    {j k : String} (jv : JVal) (tail : List String) (h : j ≠ k) :
    lookupPath (objInsert m k jv) (j :: tail) = lookupPath m (j :: tail) := by
  cases tail with
  | nil =>
    rw [lookupPath_single, lookupPath_single, objLookup_objInsert_of_ne m _ h]
  | cons p1 ps =>
    rw [lookupPath_cons_cons, lookupPath_cons_cons,
      objLookup_objInsert_of_ne m _ h]

theorem lookupPath_setPath_self :
    ∀ (p : List String) (m : List (String × JVal)) (v : String), p ≠ [] →
    lookupPath (setPath m p v) p = some v
  | [], _, _, hne => absurd rfl hne
  | [k], m, v, _ => by
    rw [setPath_single, lookupPath_single, objLookup_objInsert_self]
  | k :: r :: rs, m, v, _ => by
    rw [setPath_cons_cons, lookupPath_objInsert_obj_self]
    exact lookupPath_setPath_self (r :: rs) _ v (by simp)

theorem lookupPath_setPath_of_not_conflict :
    ∀ (q p : List String) (m : List (String × JVal)) (v : String),
    pathsConflict p q = false →
    lookupPath (setPath m q v) p = lookupPath m p
  | _, [], _, _, hc => by simp [pathsConflict] at hc
  | [], _ :: _, _, _, hc => by simp [pathsConflict] at hc
  | k :: qrest, j :: prest, m, v, hc => by
    by_cases hjk : j = k
    · subst hjk
      have hc' : pathsConflict prest qrest = false := by
        simpa [pathsConflict] using hc
      cases prest with
      | nil => simp [pathsConflict] at hc'
      | cons p1 ps =>
        cases qrest with
        | nil => simp [pathsConflict] at hc'
        | cons q1 qs =>
          rw [setPath_cons_cons, lookupPath_objInsert_obj_self,
            lookupPath_cons_cons]
          cases hmj : objLookup m j with
          | none =>
            have hch : objChild m j = [] := by simp [objChild, hmj]
            rw [hch,
              lookupPath_setPath_of_not_conflict (q1 :: qs) (p1 :: ps) [] v hc',
              lookupPath_nil]
          | some jv =>
            cases jv with
            | str s =>
              have hch : objChild m j = [] := by simp [objChild, hmj]
              rw [hch,
                lookupPath_setPath_of_not_conflict (q1 :: qs) (p1 :: ps) [] v
                  hc',
                lookupPath_nil]
            | obj o =>
              have hch : objChild m j = o := by simp [objChild, hmj]
              rw [hch]
              exact
                lookupPath_setPath_of_not_conflict (q1 :: qs) (p1 :: ps) o v hc'
    · cases qrest with
      | nil =>
        rw [setPath_single, lookupPath_objInsert_of_ne m _ prest hjk]
      | cons q1 qs =>
        rw [setPath_cons_cons, lookupPath_objInsert_of_ne m _ prest hjk]

theorem lookupPath_expandFold_of_not_conflict :
    ∀ (entries : List (String × String)) (acc : List (String × JVal))
      (p : List String),
    (∀ e ∈ entries, pathsConflict p (jsSplit e.1 '.') = false) →
    lookupPath
      (entries.foldl (fun result e => setPath result (jsSplit e.1 '.') e.2) acc)
      p = lookupPath acc p := by
  intro entries
  induction entries with
  | nil => intro acc p _; rfl
  | cons e rest ih =>
    intro acc p h
    have h1 :=
      ih (setPath acc (jsSplit e.1 '.') e.2) p (fun x hx => h x (by simp [hx]))
    have h2 :=
      lookupPath_setPath_of_not_conflict (jsSplit e.1 '.') p acc e.2
        (h e (by simp))
    exact h1.trans h2

theorem lookupPath_expandFold_places :
    ∀ (entries : List (String × String)) (acc : List (String × JVal)),
    List.Pairwise
      (fun a b => pathsConflict (jsSplit a.1 '.') (jsSplit b.1 '.') = false)
      entries →
    ∀ kv ∈ entries,
    lookupPath
      (entries.foldl (fun result e => setPath result (jsSplit e.1 '.') e.2) acc)
      (jsSplit kv.1 '.') = some kv.2 := by
  intro entries
  induction entries with
  | nil => intro acc _ kv hkv; simp at hkv
  | cons e rest ih =>
    intro acc hpw kv hkv
    rcases List.pairwise_cons.mp hpw with ⟨hhead, htail⟩
    rcases List.mem_cons.mp hkv with he | hm
    · subst he
      have h1 :=
        lookupPath_expandFold_of_not_conflict rest
          (setPath acc (jsSplit kv.1 '.') kv.2) (jsSplit kv.1 '.')
          (fun x hx => hhead x hx)
      have h2 :=
        lookupPath_setPath_self (jsSplit kv.1 '.') acc kv.2
          (jsSplit_ne_nil kv.1 '.')
      exact h1.trans h2
    · exact ih _ htail kv hm

/-! ### Claim theorems -/

/-- C1 counterexample: an option whose metadata declares neither an
`unknown` flag nor a `dataType` (the shape of every aggregate-function
option) is accepted by `filterAggregateParams`, although it is neither
unknown-flagged nor numeric-typed; and, contrary to the parenthetical
of the claim, it passes both filters. So the claimed iff for
`filterAggregateParams` is false at this input. -/
theorem filterAggregateParams_iff_counterexample :
    filterAggregateParams
        { label := "count()"
          value := { kind := "function", meta := { name := "count" } } } = true
    ∧ filterTableOptions
        { label := "count()"
          value := { kind := "function", meta := { name := "count" } } } = true
    ∧ ¬ (isUnknownFlagged
          { label := "count()"
            value := { kind := "function", meta := { name := "count" } } }
        ∨ isNumericTyped
          { label := "count()"
            value := { kind := "function", meta := { name := "count" } } }) := by
  refine ⟨rfl, rfl, ?_⟩
  decide

/-- C1 (amended): `filterTableOptions o` is `false` iff `o` declares a
numeric data type; `filterAggregateParams o` is `true` iff `o` is
unknown-flagged, or declares a numeric data type, or declares no data
type at all (equivalently, it is `false` exactly for options with a
known non-numeric data type and no unknown flag). -/
theorem filters_characterization (o : FieldValueOption) :
    (filterTableOptions o = false ↔ isNumericTyped o)
    ∧ (filterAggregateParams o = true ↔
        (isUnknownFlagged o ∨ isNumericTyped o
          ∨ o.value.meta.dataType = none)) := by
  obtain ⟨l, ⟨k, ⟨n, dt, unk⟩⟩⟩ := o
  constructor
  · cases dt with
    | none => simp [filterTableOptions, isNumericTyped]
    | some d =>
      by_cases hd : d = "number" <;>
        simp [filterTableOptions, isNumericTyped, hd]
  · rcases unk with _ | b
    · cases dt with
      | none =>
        simp [filterAggregateParams, isUnknownFlagged, isNumericTyped]
      | some d =>
        by_cases hd : d = "number" <;>
          simp [filterAggregateParams, isUnknownFlagged, isNumericTyped, hd]
    · cases b with
      | false =>
        cases dt with
        | none =>
          simp [filterAggregateParams, isUnknownFlagged, isNumericTyped]
        | some d =>
          by_cases hd : d = "number" <;>
            simp [filterAggregateParams, isUnknownFlagged, isNumericTyped, hd]
      | true =>
        simp [filterAggregateParams, isUnknownFlagged, isNumericTyped]

/-- C10: no option is hidden by both filters: every field value option
passes `filterTableOptions` or passes `filterAggregateParams`. -/
theorem filters_cover_all_options (o : FieldValueOption) :
    filterTableOptions o = true ∨ filterAggregateParams o = true := by
  obtain ⟨l, ⟨k, ⟨n, dt, unk⟩⟩⟩ := o
  cases dt with
  | none => left; simp [filterTableOptions]
  | some d =>
    by_cases hd : d = "number"
    · right; simp [filterAggregateParams, hd]
    · left; simp [filterTableOptions, hd]

/-- C2 counterexample: for a tag with an absent kind, the produced
option is keyed `"undefined:<key>"` and its metadata data type is
`"number"`, not the `"string"` the claim requires for an
unspecified/absent kind; no option exists at the plain-tag-kind key
`"tag:<key>"` either. -/
theorem tag_without_kind_counterexample :
    (objLookup (getEventsTableFieldOptions { slug := "acme" }
        (some [{ key := "foo", name := "foo" }])) "undefined:foo").map
      (fun o => o.value.meta.dataType) = some (some "number")
    ∧ (objLookup (getEventsTableFieldOptions { slug := "acme" }
        (some [{ key := "foo", name := "foo" }])) "undefined:foo").map
      (fun o => o.value.meta.dataType) ≠ some (some "string")
    ∧ objLookup (getEventsTableFieldOptions { slug := "acme" }
        (some [{ key := "foo", name := "foo" }])) "tag:foo" = none := by
  refine ⟨by decide, by decide, by decide⟩

/-- C2 (amended): for every tag catalog whose derived option keys are
pairwise distinct, `getEventsTableFieldOptions` holds, in addition to
the fixed aggregate-function entries, exactly one option per tag,
keyed `"<kind>:<key>"` (an absent kind interpolating as the string
`"undefined"`), whose metadata data type is `"string"` when the kind
is the plain `"tag"` kind and `"number"` for any other kind, including
an unspecified/absent kind. -/
theorem getEventsTableFieldOptions_tag_entries (organization : Organization)
    (tags : TagCollection) (hnd : (tags.map tagOptionKey).Nodup)
    (t : Tag) (ht : t ∈ tags) :
    objLookup (getEventsTableFieldOptions organization (some tags))
        (tagOptionKey t) = some (tagFieldOption t)
    ∧ ((getEventsTableFieldOptions organization (some tags)).map
        Prod.fst).count (tagOptionKey t) = 1
    ∧ (tagFieldOption t).value.meta.dataType
        = some (if t.kind = some "tag" then "string" else "number") := by
  have hkeys : ((tags.map
      (fun tag => (tagOptionKey tag, tagFieldOption tag))).map Prod.fst)
      = tags.map tagOptionKey := by
    simp [List.map_map]
  have hres : getEventsTableFieldOptions organization (some tags)
      = objSpread baseFieldOptions
          (tags.map (fun tag => (tagOptionKey tag, tagFieldOption tag))) := by
    show objSpread baseFieldOptions
        (tags.foldl
          (fun acc tag => objInsert acc (tagOptionKey tag) (tagFieldOption tag))
          []) = _
    rw [foldl_objInsert_tags_eq tags [] hnd (by simp)]
    rfl
  have hlook : objLookup (getEventsTableFieldOptions organization (some tags))
      (tagOptionKey t) = some (tagFieldOption t) := by
    rw [hres]
    exact objLookup_objSpread_mem _ _ _ _ (by rw [hkeys]; exact hnd)
      (List.mem_map_of_mem _ ht)
  refine ⟨hlook, ?_, rfl⟩
  have hnodup : ((getEventsTableFieldOptions organization
      (some tags)).map Prod.fst).Nodup := by
    rw [hres]
    exact keys_nodup_objSpread _ baseFieldOptions baseFieldOptions_keys_nodup
  have hmem : tagOptionKey t ∈ (getEventsTableFieldOptions organization
      (some tags)).map Prod.fst :=
    objLookup_mem_keys _ _ _ hlook
  exact List.count_eq_one_of_mem hnodup hmem

/-- C2 witness: a concrete two-tag catalog; the measurement-kinded tag
yields exactly one entry at key `"measurement:span.duration"`, with
data type `"number"`. -/
theorem getEventsTableFieldOptions_tag_entries_witness :
    objLookup (getEventsTableFieldOptions { slug := "acme" }
        (some [{ key := "span.op", name := "span.op", kind := some "tag" },
               { key := "span.duration", name := "span.duration",
                 kind := some "measurement" }]))
      (tagOptionKey { key := "span.duration", name := "span.duration",
                      kind := some "measurement" })
      = some (tagFieldOption { key := "span.duration",
                               name := "span.duration",
                               kind := some "measurement" })
    ∧ ((getEventsTableFieldOptions { slug := "acme" }
        (some [{ key := "span.op", name := "span.op", kind := some "tag" },
               { key := "span.duration", name := "span.duration",
                 kind := some "measurement" }])).map Prod.fst).count
      (tagOptionKey { key := "span.duration", name := "span.duration",
                      kind := some "measurement" }) = 1 :=
  ⟨(getEventsTableFieldOptions_tag_entries { slug := "acme" }
      [{ key := "span.op", name := "span.op", kind := some "tag" },
       { key := "span.duration", name := "span.duration",
         kind := some "measurement" }]
      (by decide)
      { key := "span.duration", name := "span.duration",
        kind := some "measurement" }
      (by decide)).1,
   (getEventsTableFieldOptions_tag_entries { slug := "acme" }
      [{ key := "span.op", name := "span.op", kind := some "tag" },
       { key := "span.duration", name := "span.duration",
         kind := some "measurement" }]
      (by decide)
      { key := "span.duration", name := "span.duration",
        kind := some "measurement" }
      (by decide)).2.1⟩

/-- C8: `getEventsTableFieldOptions` is a total pure function of its
inputs in this embedding (the source builds new objects by spread and
never assigns into its arguments, so it cannot mutate the supplied tag
catalog), and it returns the base catalog normally, rather than
throwing, when the tag catalog is absent or empty. -/
theorem getEventsTableFieldOptions_total_on_empty
    (organization : Organization) :
    getEventsTableFieldOptions organization none = baseFieldOptions
    ∧ getEventsTableFieldOptions organization (some []) = baseFieldOptions :=
  ⟨rfl, rfl⟩

/-- C3 counterexample: for the cursor `"100:abc:0"` (second field
present but unparseable) and direction previous, the derived offset is
NaN, not the claimed default 0, and the navigation query forwards the
cursor instead of omitting it (the claim requires omission, since a
0 default is at or before 0). -/
theorem onCursor_unparseable_counterexample :
    deriveOffset (some "100:abc:0") ≠ some 0
    ∧ onCursorQueryCursor (some "100:abc:0") (-1) ≠ none
    ∧ onCursorQueryCursor (some "100:abc:0") (-1)
        = some (some "100:abc:0") := by
  refine ⟨by decide, by decide, by decide⟩

/-- C3 (amended): the handler derives the offset by applying
JavaScript `Number` to the second colon-delimited cursor field,
defaulting to 0 only when the cursor or that field is absent; when the
derived offset is a number at or before 0 and the direction is
previous, the navigation query omits the cursor key; when the field is
present but unparseable (`Number` gives NaN), or the offset is
positive, or the direction is not previous, the new cursor is
forwarded verbatim. -/
theorem onCursor_characterization (cursor : Option String)
    (direction : Int) :
    (cursor = none → deriveOffset cursor = some 0)
    ∧ (∀ c : String, cursor = some c → (jsSplit c ':').get? 1 = none →
        deriveOffset cursor = some 0)
    ∧ (∀ v : Int, deriveOffset cursor = some v → v ≤ 0 → direction = -1 →
        onCursorQueryCursor cursor direction = none)
    ∧ (deriveOffset cursor = none →
        onCursorQueryCursor cursor direction = some cursor)
    ∧ (∀ v : Int, deriveOffset cursor = some v → 0 < v →
        onCursorQueryCursor cursor direction = some cursor)
    ∧ (direction ≠ -1 → onCursorQueryCursor cursor direction = some cursor) := by
  refine ⟨?_, ?_, ?_, ?_, ?_, ?_⟩
  · intro h; rw [h]; rfl
  · intro c hc hsplit
    rw [hc]
    show (match (jsSplit c ':').get? 1 with
          | none => some 0
          | some s => jsNumberStr s) = some 0
    rw [hsplit]
  · intro v hv hle hdir
    simp [onCursorQueryCursor, offsetAtOrBeforeStart, hv, hle, hdir]
  · intro h
    simp [onCursorQueryCursor, offsetAtOrBeforeStart, h]
  · intro v hv hpos
    simp [onCursorQueryCursor, offsetAtOrBeforeStart, hv, not_le.mpr hpos]
  · intro h
    simp [onCursorQueryCursor, h]

/-- C3 witness: the spec examples. With cursor `"100:0:0"` and
direction previous the offset 0 is at or before 0, so the cursor key
is omitted; with cursor `"100:1:0"` and direction previous the offset
1 is positive, so the cursor is forwarded verbatim. -/
theorem onCursor_characterization_witness :
    onCursorQueryCursor (some "100:0:0") (-1) = none
    ∧ onCursorQueryCursor (some "100:1:0") (-1) = some (some "100:1:0") :=
  ⟨(onCursor_characterization (some "100:0:0") (-1)).2.2.1 0
      (by decide) (by decide) rfl,
   (onCursor_characterization (some "100:1:0") (-1)).2.2.2.2.1 1
      (by decide) (by decide)⟩

/-- C4: duplicating a dashboard whose fetched detail has N widgets
issues one create request with exactly N widgets, every widget
identifier absent, and duplicate-title detection disabled (the
`duplicate` flag of the create call is set). The clone step is
modelled from the spec (external collaborator preserving the widget
list). -/
theorem handleDuplicate_strips_ids (dashboardDetail : DashboardDetails) :
    (handleDuplicate dashboardDetail).dashboard.widgets.length
      = dashboardDetail.widgets.length
    ∧ (handleDuplicate dashboardDetail).dashboard.widgets.map Widget.id
      = List.replicate dashboardDetail.widgets.length none
    ∧ (handleDuplicate dashboardDetail).duplicate = true := by
  refine ⟨by simp [handleDuplicate, cloneDashboard], ?_, rfl⟩
  simp only [handleDuplicate, cloneDashboard, List.map_map]
  induction dashboardDetail.widgets with
  | nil => rfl
  | cons w rest ih => simpa [List.replicate_succ] using ih

/-- C5: a table request built from a widget query with orderby
`"-avg(span.duration)"` carries a `sort` parameter equal to the
single-element list holding that string; a request built from a query
with empty orderby carries no `sort` parameter at all. -/
theorem getEventsRequest_sort_param (query : WidgetQuery)
    (organization : Organization) (pageFilters : PageFilters)
    (limit : Option Nat) (cursor : Option String)
    (referrer : Option String) :
    (query.orderby = "-avg(span.duration)" →
      (getEventsRequest query organization pageFilters limit cursor
        referrer).sort = some ["-avg(span.duration)"])
    ∧ (query.orderby = "" →
      (getEventsRequest query organization pageFilters limit cursor
        referrer).sort = none) := by
  constructor
  · intro h
    simp [getEventsRequest, toArray, h]
  · intro h
    simp [getEventsRequest, h]

/-- C5 witness: the default widget query (orderby
`"-avg(span.duration)"`) yields the singleton sort; the same query
with empty orderby yields no sort parameter. -/
theorem getEventsRequest_sort_param_witness :
    (getEventsRequest DEFAULT_WIDGET_QUERY { slug := "acme" } {} none none
      none).sort = some ["-avg(span.duration)"]
    ∧ (getEventsRequest { DEFAULT_WIDGET_QUERY with orderby := "" }
      { slug := "acme" } {} none none none).sort = none :=
  ⟨(getEventsRequest_sort_param DEFAULT_WIDGET_QUERY { slug := "acme" } {}
      none none none).1 rfl,
   (getEventsRequest_sort_param { DEFAULT_WIDGET_QUERY with orderby := "" }
      { slug := "acme" } {} none none none).2 rfl⟩

/-- C6: every table request issued through `getTableRequest` carries a
retry policy whose status-code list is exactly `[429]` (no other
status triggers retry) and whose total attempt count is 3. -/
theorem getTableRequest_retry_policy (widget : Widget) (query : WidgetQuery)
    (organization : Organization) (pageFilters : PageFilters)
    (limit : Option Nat) (cursor : Option String)
    (referrer : Option String) :
    (getTableRequest widget query organization pageFilters limit cursor
      referrer).retry.statusCodes = [429]
    ∧ (getTableRequest widget query organization pageFilters limit cursor
      referrer).retry.tries = 3 :=
  ⟨rfl, rfl⟩

/-- C7: in the quick-action menu of a dashboard card, the delete
action is disabled whenever the rendered list holds exactly one
dashboard, and enabled (no key disabled) whenever it holds two or
more. -/
theorem renderDropdownMenu_delete_disabled (d d1 d2 : DashboardListItem)
    (rest : List DashboardListItem) :
    renderDropdownMenuDisabledKeys (some [d]) = ["dashboard-delete"]
    ∧ renderDropdownMenuDisabledKeys (some (d1 :: d2 :: rest)) = [] := by
  constructor
  · rfl
  · simp [renderDropdownMenuDisabledKeys]

/-- C9: `expandKeys` places each value of the flat repository object
at the nested path obtained by splitting its key on `"."`, for every
object whose key paths are pairwise non-conflicting (no key path a
prefix of another); it is a pure function of its input in this
embedding, performing no I/O and building a fresh result object. -/
theorem expandKeys_places_values (obj : List (String × String))
    (hpw : List.Pairwise
      (fun a b => pathsConflict (jsSplit a.1 '.') (jsSplit b.1 '.') = false)
      obj)
    (kv : String × String) (hmem : kv ∈ obj) :
    lookupPath (expandKeys obj) (jsSplit kv.1 '.') = some kv.2 :=
  lookupPath_expandFold_places obj [] hpw kv hmem

/-- C9 witness: a concrete repository object with dotted keys; the
value of `"layout.casing"` is found at path `["layout", "casing"]`,
and the nested shape for key `"a.b.c"` is the fully nested object of
the claim. -/
theorem expandKeys_places_values_witness :
    lookupPath
      (expandKeys [("layout.type", "native"), ("layout.casing", "default"),
        ("url", "https://example.com")])
      (jsSplit "layout.casing" '.') = some "default"
    ∧ expandKeys [("a.b.c", "v")]
      = [("a", JVal.obj [("b", JVal.obj [("c", JVal.str "v")])])] :=
  ⟨expandKeys_places_values
      [("layout.type", "native"), ("layout.casing", "default"),
        ("url", "https://example.com")]
      (by decide) ("layout.casing", "default") (by decide),
   rfl⟩

end SentryDashboards
